import Mathlib

/-!
Verification of the temporal-slab benchmark visualization pipeline
(tools/plot_bench.py): record loading, classification by field presence,
derived statistics, and the chart renderers, shallowly embedded.

Modelling conventions:
  - A CSV cell is a `Val`: the abstract content of the raw string.
    `Val.intStr n` is a string spelling the integer `n` (so Python `int`
    and `float` both accept it), `Val.floatStr q` is a string spelling a
    non-integer decimal number with value `q` (accepted by `float`,
    rejected by `int`), and `Val.text s` is any other string (rejected
    by both numeric conversions).
  - Python floats are modelled as rationals (`Rat`).
  - A `Record` is a row: an association list from field name to `Val`,
    with `dict`-style first-match lookup.
  - Fallible Python code (KeyError from `row[k]`, ValueError from
    `int`/`float`) is modelled with `Except PyError`; a `ValueError` is
    tagged with the field whose value failed to convert.
  - Each renderer returns the data content of its chart (`ROut`):
    the artifact it would save, if any, plus the diagnostics it prints
    to stderr. The `main` orchestrator is `mainRun`, returning either a
    process exit (`MainResult.exited`) or an uncaught exception
    (`MainResult.crashed`), together with the artifacts produced before
    the end of the run.
-/

inductive Val where
  | intStr : Int → Val
  | floatStr : Rat → Val
  | text : String → Val
deriving DecidableEq, Repr

/-- Python `int(s)`: succeeds exactly on strings spelling an integer. -/
def pyInt : Val → Option Int
  | .intStr n => some n
  | _ => none

/-- Python `float(s)`: succeeds on integer and decimal spellings. -/
def pyFloat : Val → Option Rat
  | .intStr n => some (n : Rat)
  | .floatStr q => some q
  | .text _ => none

inductive PyError where
  | keyError : String → PyError
  | valueError : String → PyError
  | zeroDivisionError : PyError
deriving DecidableEq, Repr

deriving instance DecidableEq for Except

structure Record where
  fields : List (String × Val)
deriving DecidableEq, Repr

/-- `row.get(k)` / `k in row`: first binding of `k` in the row. -/
def Record.lookup (r : Record) (k : String) : Option Val :=
  (r.fields.find? (fun p => p.1 == k)).map (fun p => p.2)

/-- Python `k in row`. -/
def Record.hasField (r : Record) (k : String) : Bool :=
  (r.lookup k).isSome

/-- Python `int(row[k])`: KeyError when absent, ValueError when not an
integer spelling. -/
def Record.intItem (r : Record) (k : String) : Except PyError Int :=
  match r.lookup k with
  | some v =>
    match pyInt v with
    | some n => .ok n
    | none => .error (.valueError k)
  | none => .error (.keyError k)

/-- Python `float(row[k])`. -/
def Record.floatItem (r : Record) (k : String) : Except PyError Rat :=
  match r.lookup k with
  | some v =>
    match pyFloat v with
    | some q => .ok q
    | none => .error (.valueError k)
  | none => .error (.keyError k)

/-- Python `float(row.get(k, 0))`: defaults to `0.0` when the field is
absent; may still raise ValueError when present but non-numeric. -/
def Record.getFloatD (r : Record) (k : String) : Except PyError Rat :=
  match r.lookup k with
  | some v =>
    match pyFloat v with
    | some q => .ok q
    | none => .error (.valueError k)
  | none => .ok 0

/-- Python `row.get('op') == s`. -/
def opIs (r : Record) (s : String) : Bool :=
  r.lookup "op" == some (Val.text s)

/-- The field `k`, when present in the row, converts with `int`
(vacuously true when absent). -/
def cleanIntField (r : Record) (k : String) : Bool :=
  match r.lookup k with
  | some v => (pyInt v).isSome
  | none => true

/-- The field `k`, when present in the row, converts with `float`. -/
def cleanFloatField (r : Record) (k : String) : Bool :=
  match r.lookup k with
  | some v => (pyFloat v).isSome
  | none => true

/-- Left-to-right effectful map: the semantics of a Python list
comprehension whose element expression may raise. -/
def mapExcept {α β : Type} (f : α → Except PyError β) : List α → Except PyError (List β)
  | [] => .ok []
  | a :: as =>
    match f a with
    | .error e => .error e
    | .ok b =>
      match mapExcept f as with
      | .error e => .error e
      | .ok bs => .ok (b :: bs)

/-- `np.mean` on a list of floats. -/
def ratMean (l : List Rat) : Rat := l.sum / (l.length : Rat)

/-- `np.mean` on a list of ints (NumPy returns a float). -/
def intMean (l : List Int) : Rat := ((l.sum : Rat)) / (l.length : Rat)

/-- Result of one renderer call: the chart it saved (if any) and the
diagnostics it printed to stderr. -/
structure ROut (α : Type) where
  artifact : Option α
  notes : List String
deriving DecidableEq, Repr

/-! ### plot_fragmentation (lines 42-91)

The per-size-class accumulation `size_classes` is a Python dict keyed by
`int(row['size_class'])`; we model it as an association list with unique
keys, preserving insertion order (irrelevant after the final sort but
kept faithful). -/

structure SCEntry where
  requested : List Int
  wasted : List Int
  efficiency : List Rat
deriving DecidableEq, Repr

def emptyEntry : SCEntry := ⟨[], [], []⟩

def SCEntry.push (e : SCEntry) (req was : Int) (eff : Rat) : SCEntry :=
  ⟨e.requested ++ [req], e.wasted ++ [was], e.efficiency ++ [eff]⟩

abbrev SCMap := List (Int × SCEntry)

def hasKey (m : SCMap) (c : Int) : Bool := (m.find? (fun p => p.1 == c)).isSome

def entryOf (m : SCMap) (c : Int) : SCEntry :=
  ((m.find? (fun p => p.1 == c)).map (fun p => p.2)).getD emptyEntry

def keysOf (m : SCMap) : List Int := m.map (fun p => p.1)

/-- `size_classes[sc]` update in place (keys are unique, so updating the
first occurrence is dict assignment). -/
def updateEntry (m : SCMap) (c : Int) (f : SCEntry → SCEntry) : SCMap :=
  match m with
  | [] => []
  | (k, e) :: rest => if k = c then (k, f e) :: rest else (k, e) :: updateEntry rest c f

/-- The numeric content of one fragmentation row after conversion. -/
structure FragRow where
  sc : Int
  requested : Int
  wasted : Int
  eff : Rat
deriving DecidableEq, Repr

/-- One iteration of the `for row in data` loop of `plot_fragmentation`,
parsing side: skip rows without `size_class` (the `continue`), otherwise
convert `size_class`, `requested`, `wasted`, `efficiency_pct` in the
order the source reads them. -/
def parseFragRow (r : Record) : Except PyError (Option FragRow) :=
  if r.hasField "size_class" then
    match r.intItem "size_class" with
    | .error e => .error e
    | .ok sc =>
      match r.intItem "requested" with
      | .error e => .error e
      | .ok req =>
        match r.intItem "wasted" with
        | .error e => .error e
        | .ok was =>
          match r.floatItem "efficiency_pct" with
          | .error e => .error e
          | .ok eff => .ok (some ⟨sc, req, was, eff⟩)
  else .ok none

/-- Add one converted row to the dict: create the entry on first sight
of the class, then append to its three lists. -/
def mapInsert (m : SCMap) (row : FragRow) : SCMap :=
  if hasKey m row.sc then updateEntry m row.sc (fun e => e.push row.requested row.wasted row.eff)
  else m ++ [(row.sc, SCEntry.push emptyEntry row.requested row.wasted row.eff)]

/-- Pure accumulation of already-converted rows. -/
def foldRows (m : SCMap) : List FragRow → SCMap
  | [] => m
  | row :: rest => foldRows (mapInsert m row) rest

def fragStepMap (m : SCMap) (r : Record) : Except PyError SCMap :=
  match parseFragRow r with
  | .error e => .error e
  | .ok (some row) => .ok (mapInsert m row)
  | .ok none => .ok m

/-- The whole `for row in data` loop of `plot_fragmentation`. -/
def buildSizeClasses (m : SCMap) : List Record → Except PyError SCMap
  | [] => .ok m
  | r :: rest =>
    match fragStepMap m r with
    | .error e => .error e
    | .ok m2 => buildSizeClasses m2 rest

structure FragChart where
  classes : List Int
  avgWaste : List Rat
  avgEfficiency : List Rat
deriving DecidableEq, Repr

def plot_fragmentation (data : List Record) : Except PyError (ROut FragChart) :=
  if data.isEmpty then .ok ⟨none, ["No fragmentation data found"]⟩
  else
    match buildSizeClasses [] data with
    | .error e => .error e
    | .ok m =>
      let classes := List.insertionSort (fun a b => a ≤ b) (keysOf m)
      let avgWaste := classes.map (fun c => intMean (entryOf m c).wasted)
      let avgEff := classes.map (fun c => ratMean (entryOf m c).efficiency)
      .ok ⟨some ⟨classes, avgWaste, avgEff⟩, []⟩

/-! ### plot_latency_comparison (lines 94-134) -/

def metricNames : List String := ["p50_ns", "p95_ns", "p99_ns", "p999_ns"]

structure LatencyChart where
  allocVals : List Rat
  freeVals : List Rat
deriving DecidableEq, Repr

def plot_latency_comparison (data : List Record) : Except PyError (ROut LatencyChart) :=
  if data.isEmpty then .ok ⟨none, ["No latency data found"]⟩
  else
    let alloc_data := data.filter (fun r => opIs r "alloc")
    let free_data := data.filter (fun r => opIs r "free")
    match alloc_data with
    | [] => .ok ⟨none, ["No allocation latency data"]⟩
    | a0 :: _ =>
      match mapExcept (fun k => a0.getFloatD k) metricNames with
      | .error e => .error e
      | .ok allocVals =>
        match free_data with
        | [] => .ok ⟨some ⟨allocVals, [0, 0, 0, 0]⟩, []⟩
        | f0 :: _ =>
          match mapExcept (fun k => f0.getFloatD k) metricNames with
          | .error e => .error e
          | .ok freeVals => .ok ⟨some ⟨allocVals, freeVals⟩, []⟩

/-! ### plot_latency_cdf (lines 137-180)

On an empty alloc slice it returns without printing anything. -/

structure CdfChart where
  percentiles : List Rat
  latencies : List Rat
deriving DecidableEq, Repr

def plot_latency_cdf (data : List Record) : Except PyError (ROut CdfChart) :=
  let alloc_data := data.filter (fun r => opIs r "alloc")
  match alloc_data with
  | [] => .ok ⟨none, []⟩
  | r0 :: _ =>
    match mapExcept (fun k => r0.getFloatD k) metricNames with
    | .error e => .error e
    | .ok lats => .ok ⟨some ⟨[1/2, 95/100, 99/100, 999/1000], lats⟩, []⟩

/-! ### plot_rss_over_time (lines 183-225)

The four list comprehensions run in source order over the whole group
before anything is drawn; `growthInfo` is the initial/final/growth-pct
block guarded by `if rss_values:`. When the first `rss_mib` value is
zero, the division at line 207 raises an uncaught ZeroDivisionError
before the chart is saved at line 222, so no artifact is produced. -/

structure RssChart where
  cycles : List Int
  rssValues : List Rat
  allocated : List Int
  recycled : List Int
  growthInfo : Option (Rat × Rat × Rat)
deriving DecidableEq, Repr

def plot_rss_over_time (data : List Record) : Except PyError (ROut RssChart) :=
  if data.isEmpty then .ok ⟨none, ["No RSS churn data found"]⟩
  else
    match mapExcept (fun r => r.intItem "cycle") data with
    | .error e => .error e
    | .ok cycles =>
      match mapExcept (fun r => r.floatItem "rss_mib") data with
      | .error e => .error e
      | .ok rss =>
        match mapExcept (fun r => r.intItem "slabs_allocated") data with
        | .error e => .error e
        | .ok allocated =>
          match mapExcept (fun r => r.intItem "slabs_recycled") data with
          | .error e => .error e
          | .ok recycled =>
            match rss with
            | [] => .ok ⟨some ⟨cycles, [], allocated, recycled, none⟩, []⟩
            | q :: qs =>
              if q = 0 then .error .zeroDivisionError
              else
                .ok ⟨some ⟨cycles, q :: qs, allocated, recycled,
                  some (q, (q :: qs).getLastD 0,
                    (((q :: qs).getLastD 0) - q) / q * 100)⟩, []⟩

/-! ### plot_summary_card (lines 228-283) -/

structure SummaryCard where
  p50 : Rat
  p99 : Rat
  p999 : Rat
  avgEfficiency : Rat
deriving DecidableEq, Repr

def plot_summary_card (latency_data frag_data : List Record) : Except PyError (ROut SummaryCard) :=
  let alloc_row := (latency_data.find? (fun r => opIs r "alloc")).getD ⟨[]⟩
  match alloc_row.getFloatD "p50_ns" with
  | .error e => .error e
  | .ok p50 =>
    match alloc_row.getFloatD "p99_ns" with
    | .error e => .error e
    | .ok p99 =>
      match alloc_row.getFloatD "p999_ns" with
      | .error e => .error e
      | .ok p999 =>
        if frag_data.isEmpty then .ok ⟨some ⟨p50, p99, p999, 0⟩, []⟩
        else
          match mapExcept (fun r => r.floatItem "efficiency_pct")
              (frag_data.filter (fun r => r.hasField "efficiency_pct")) with
          | .error e => .error e
          | .ok effs =>
            .ok ⟨some ⟨p50, p99, p999, if effs.isEmpty then 0 else ratMean effs⟩, []⟩

/-! ### Classifier (main, lines 317-319) -/

def isLatencyRec (r : Record) : Bool := r.hasField "op"

def isFragRec (r : Record) : Bool := r.hasField "efficiency_pct" && !(r.hasField "op")

def isRssRec (r : Record) : Bool := r.hasField "cycle" && r.hasField "rss_mib"

/-! ### Loader and orchestrator (load_csv lines 32-39, main lines 286-340)

The filesystem is a map from path to parsed rows; `load_csv` returns
zero rows for a missing path (the `path.exists()` guard). -/

abbrev FileSystem := List (String × List Record)

def pathExists (fs : FileSystem) (p : String) : Bool :=
  (fs.find? (fun q => q.1 == p)).isSome

def load_csv (fs : FileSystem) (p : String) : List Record :=
  match fs.find? (fun q => q.1 == p) with
  | some q => q.2
  | none => []

/-- The `all_data` accumulation loop of `main`. -/
def loadAll (fs : FileSystem) (paths : List String) : List Record :=
  (paths.map (load_csv fs)).flatten

inductive Artifact where
  | latencyPercentiles : LatencyChart → Artifact
  | latencyCdf : CdfChart → Artifact
  | fragmentation : FragChart → Artifact
  | rssOverTime : RssChart → Artifact
  | summary : SummaryCard → Artifact
deriving DecidableEq, Repr

inductive MainResult where
  | exited : Nat → List Artifact → MainResult
  | crashed : PyError → List Artifact → MainResult
deriving DecidableEq, Repr

/-- One guarded renderer call in `main`: skipped when its group test is
false, otherwise contributing its artifact or raising. -/
def phase {α : Type} (cond : Bool) (wrap : α → Artifact) (res : Except PyError (ROut α)) :
    Except PyError (List Artifact) :=
  if cond then
    match res with
    | .ok out =>
      .ok (match out.artifact with
           | some a => [wrap a]
           | none => [])
    | .error e => .error e
  else .ok []

/-- `main` after argument parsing: glob result `csvFiles`, load, the two
fatal `sys.exit(1)` checks, classification, then the five renderer calls
in source order; an uncaught exception aborts the run keeping the
artifacts already written. -/
def mainRun (fs : FileSystem) (csvFiles : List String) : MainResult :=
  if csvFiles.isEmpty then .exited 1 []
  else
    let all_data := loadAll fs csvFiles
    if all_data.isEmpty then .exited 1 []
    else
      let latency_data := all_data.filter isLatencyRec
      let frag_data := all_data.filter isFragRec
      let rss_data := all_data.filter isRssRec
      match phase (!latency_data.isEmpty) Artifact.latencyPercentiles
          (plot_latency_comparison latency_data) with
      | .error e => .crashed e []
      | .ok a1 =>
        match phase (!latency_data.isEmpty) Artifact.latencyCdf
            (plot_latency_cdf latency_data) with
        | .error e => .crashed e a1
        | .ok a2 =>
          match phase (!frag_data.isEmpty) Artifact.fragmentation
              (plot_fragmentation frag_data) with
          | .error e => .crashed e (a1 ++ a2)
          | .ok a3 =>
            match phase (!rss_data.isEmpty) Artifact.rssOverTime
                (plot_rss_over_time rss_data) with
            | .error e => .crashed e (a1 ++ a2 ++ a3)
            | .ok a4 =>
              match phase (!latency_data.isEmpty || !frag_data.isEmpty) Artifact.summary
                  (plot_summary_card latency_data frag_data) with
              | .error e => .crashed e (a1 ++ a2 ++ a3 ++ a4)
              | .ok a5 => .exited 0 (a1 ++ a2 ++ a3 ++ a4 ++ a5)

/-! ### Concrete example data -/

/-- A latency summary row as the harness emits it. -/
def exLatAlloc : Record :=
  ⟨[("op", .text "alloc"), ("p50_ns", .intStr 30), ("p95_ns", .intStr 50),
    ("p99_ns", .intStr 374), ("p999_ns", .intStr 1137)]⟩

/-- A second `alloc` row with different figures, arriving later. -/
def exLatAllocLater : Record :=
  ⟨[("op", .text "alloc"), ("p50_ns", .intStr 999), ("p95_ns", .intStr 999),
    ("p99_ns", .intStr 999), ("p999_ns", .intStr 999)]⟩

/-- A row carrying `op` together with `cycle` and `rss_mib`. -/
def exOpRss : Record :=
  ⟨[("op", .text "alloc"), ("cycle", .intStr 0), ("rss_mib", .intStr 100)]⟩

/-- A fragmentation row whose `wasted` cell is not numeric. -/
def exFragBad : Record :=
  ⟨[("efficiency_pct", .intStr 90), ("size_class", .intStr 64),
    ("requested", .intStr 64), ("wasted", .text "oops")]⟩

/-- A well-formed RSS-churn row. -/
def exRssOk (c : Int) (q : Rat) : Record :=
  ⟨[("cycle", .intStr c), ("rss_mib", .floatStr q),
    ("slabs_allocated", .intStr 1), ("slabs_recycled", .intStr 1)]⟩

/-- The spec's RSS example sequence 100.0, 100.0, 102.4 MiB. -/
def exRssChurn : List Record := [exRssOk 0 100, exRssOk 1 100, exRssOk 2 (512 / 5)]

/-- An RSS sequence whose first sample is 0.0 MiB. -/
def exRssZeroStart : List Record := [exRssOk 0 0, exRssOk 1 5]

/-- An RSS-churn row with only the two discriminator fields. -/
def exRssMissing : Record := ⟨[("cycle", .intStr 1), ("rss_mib", .intStr 100)]⟩

/-- The spec's fragmentation example rows for size class 64. -/
def exFrag64a : Record :=
  ⟨[("size_class", .intStr 64), ("requested", .intStr 64),
    ("wasted", .intStr 10), ("efficiency_pct", .intStr 90)]⟩

def exFrag64b : Record :=
  ⟨[("size_class", .intStr 64), ("requested", .intStr 64),
    ("wasted", .intStr 20), ("efficiency_pct", .intStr 80)]⟩

/-- A directory with one CSV that holds only a header (zero rows). -/
def exFsEmptyRows : FileSystem := [("a.csv", [])]

/-- A directory whose single CSV mixes a good latency row, a bad
fragmentation row, and a good RSS row. -/
def exFsCrash : FileSystem := [("bench.csv", [exLatAlloc, exFragBad, exRssOk 1 100])]

/-- A directory with one CSV of one latency row. -/
def exFsLoad : FileSystem := [("a.csv", [exLatAlloc])]

/-! ## Supporting lemmas -/

theorem mapExcept_length {α β : Type} (f : α → Except PyError β) (l : List α) (out : List β)
    (h : mapExcept f l = .ok out) : out.length = l.length := by
  induction l generalizing out with
  | nil =>
    unfold mapExcept at h
    cases h
    rfl
  | cons a as ih =>
    unfold mapExcept at h
    cases hfa : f a with
    | error e => rw [hfa] at h; exact absurd h (by simp)
    | ok b =>
      rw [hfa] at h
      cases hrest : mapExcept f as with
      | error e => rw [hrest] at h; exact absurd h (by simp)
      | ok bs =>
        rw [hrest] at h
        cases h
        simp [ih bs hrest]

/-! ## C1: classification of records containing `op` -/

/-- C1 counterexample: a Record containing `op` together with `cycle`
and `rss_mib` is placed in the `latency` group AND in the `rss_churn`
group, contradicting the claimed mutual exclusivity. -/
theorem claim1_counterexample :
    exOpRss.hasField "op" = true ∧ isLatencyRec exOpRss = true ∧ isRssRec exOpRss = true := by
  decide

/-- C1 (amended): a Record containing `op` is always in `latency` and
never in `fragmentation`, but it is additionally in `rss_churn` exactly
when it also contains both `cycle` and `rss_mib`. -/
theorem claim1_latency_exclusivity (r : Record) (h : r.hasField "op" = true) :
    isLatencyRec r = true ∧ isFragRec r = false ∧
      (isRssRec r = true ↔ (r.hasField "cycle" = true ∧ r.hasField "rss_mib" = true)) := by
  refine ⟨h, ?_, ?_⟩
  · simp [isFragRec, h]
  · simp [isRssRec, Bool.and_eq_true]

theorem claim1_witness :
    exOpRss.hasField "op" = true ∧
      (isLatencyRec exOpRss = true ∧ isFragRec exOpRss = false ∧
        (isRssRec exOpRss = true ↔
          (exOpRss.hasField "cycle" = true ∧ exOpRss.hasField "rss_mib" = true))) :=
  ⟨by decide, claim1_latency_exclusivity exOpRss (by decide)⟩

/-! ## C3: exit status of the orchestrator -/

/-- When artifacts were found and yielded records, the run ends either
in an uncaught renderer exception or in a success exit. -/
theorem mainRun_shape (fs : FileSystem) (files : List String)
    (h1 : files.isEmpty = false) (h2 : (loadAll fs files).isEmpty = false) :
    (∃ e arts, mainRun fs files = .crashed e arts) ∨
      (∃ arts, mainRun fs files = .exited 0 arts) := by
  unfold mainRun
  simp only [h1, h2, Bool.false_eq_true, if_false]
  split
  · exact Or.inl ⟨_, _, rfl⟩
  · split
    · exact Or.inl ⟨_, _, rfl⟩
    · split
      · exact Or.inl ⟨_, _, rfl⟩
      · split
        · exact Or.inl ⟨_, _, rfl⟩
        · split
          · exact Or.inl ⟨_, _, rfl⟩
          · exact Or.inr ⟨_, rfl⟩

/-- C3 counterexample: one artifact matched the glob (so the claim says
success), but it held zero rows, and the run exits with failure. -/
theorem claim3_counterexample :
    (["a.csv"] ≠ ([] : List String)) ∧ mainRun exFsEmptyRows ["a.csv"] = .exited 1 [] := by
  constructor
  · decide
  · rfl

/-- C3 (amended): the run exits with a failure status exactly when zero
artifacts match the glob or the matched artifacts together yield zero
Records; when files and records exist, it either aborts on an uncaught
renderer exception or exits successfully — in particular empty
classified Groups alone never cause a failure exit. -/
theorem claim3_exit_status (fs : FileSystem) (files : List String) :
    ((∃ arts, mainRun fs files = .exited 1 arts) ↔
      (files = [] ∨ loadAll fs files = [])) ∧
    (files ≠ [] → loadAll fs files ≠ [] →
      (∃ e arts, mainRun fs files = .crashed e arts) ∨
        (∃ arts, mainRun fs files = .exited 0 arts)) := by
  by_cases h1 : files.isEmpty
  · have hf : files = [] := List.isEmpty_iff.mp h1
    constructor
    · constructor
      · intro _; exact Or.inl hf
      · intro _; exact ⟨[], by simp [mainRun, hf]⟩
    · intro hne; exact absurd hf hne
  · have h1f : files.isEmpty = false := by simpa using h1
    by_cases h2 : (loadAll fs files).isEmpty
    · have hd : loadAll fs files = [] := List.isEmpty_iff.mp h2
      constructor
      · constructor
        · intro _; exact Or.inr hd
        · intro _
          refine ⟨[], ?_⟩
          unfold mainRun
          simp [h1f, h2]
      · intro _ hdne; exact absurd hd hdne
    · have h2f : (loadAll fs files).isEmpty = false := by simpa using h2
      have hshape := mainRun_shape fs files h1f h2f
      constructor
      · constructor
        · intro ⟨arts, harts⟩
          rcases hshape with ⟨e, a2, hc⟩ | ⟨a2, hc⟩
          · rw [hc] at harts; exact absurd harts (by simp)
          · rw [hc] at harts
            exact absurd harts (by simp)
        · intro hor
          rcases hor with hf | hd
          · exact absurd (by simp [hf] : files.isEmpty = true) (by simp [h1f])
          · exact absurd (by simp [hd] : (loadAll fs files).isEmpty = true) (by simp [h2f])
      · intro _ _; exact hshape

theorem claim3_witness :
    (["a.csv"] ≠ ([] : List String)) ∧ loadAll exFsLoad ["a.csv"] ≠ [] ∧
      ((∃ e arts, mainRun exFsLoad ["a.csv"] = .crashed e arts) ∨
        (∃ arts, mainRun exFsLoad ["a.csv"] = .exited 0 arts)) :=
  ⟨by decide, by decide, (claim3_exit_status exFsLoad ["a.csv"]).2 (by decide) (by decide)⟩

/-! ## C4: renderers on an empty group -/

/-- C4 counterexample: the latency-CDF renderer, given an empty group,
returns without emitting any diagnostic skip notice. -/
theorem claim4_counterexample :
    plot_latency_cdf [] = .ok ⟨none, []⟩ := rfl

/-- C4 (amended): every renderer given an empty Group early-returns
producing no artifact and raising nothing; the fragmentation, latency
comparison, and RSS renderers print a skip notice, while the latency-CDF
renderer returns silently, and the summary card (which has no empty
guard) still produces its artifact from zero defaults. -/
theorem claim4_empty_group_skip :
    plot_fragmentation [] = .ok ⟨none, ["No fragmentation data found"]⟩ ∧
    plot_latency_comparison [] = .ok ⟨none, ["No latency data found"]⟩ ∧
    plot_rss_over_time [] = .ok ⟨none, ["No RSS churn data found"]⟩ ∧
    plot_latency_cdf [] = .ok ⟨none, []⟩ ∧
    plot_summary_card [] [] = .ok ⟨some ⟨0, 0, 0, 0⟩, []⟩ := by
  refine ⟨rfl, rfl, rfl, rfl, rfl⟩

/-! ## C9: missing artifacts contribute zero records -/

/-- C9: a path that does not exist loads as zero Records, and the
unified collection is the concatenation, in discovery order, of the
rows of the artifacts that do exist. -/
theorem claim9_loader (fs : FileSystem) (paths : List String) :
    (∀ p, pathExists fs p = false → load_csv fs p = []) ∧
    loadAll fs paths =
      ((paths.filter (fun p => pathExists fs p)).map (load_csv fs)).flatten := by
  have hmiss : ∀ p, pathExists fs p = false → load_csv fs p = [] := by
    intro p hp
    unfold pathExists at hp
    unfold load_csv
    cases hfind : List.find? (fun q => q.1 == p) fs with
    | none => rfl
    | some q => rw [hfind] at hp; simp at hp
  refine ⟨hmiss, ?_⟩
  induction paths with
  | nil => rfl
  | cons p ps ih =>
    unfold loadAll at ih ⊢
    cases hex : pathExists fs p with
    | true => simp [List.filter_cons, hex, ih]
    | false => simp [List.filter_cons, hex, hmiss p hex, ih]

theorem claim9_witness :
    load_csv exFsLoad "missing.csv" = [] ∧
      loadAll exFsLoad ["a.csv", "missing.csv"] =
        (((["a.csv", "missing.csv"] : List String).filter
          (fun p => pathExists exFsLoad p)).map (load_csv exFsLoad)).flatten :=
  ⟨(claim9_loader exFsLoad []).1 "missing.csv" (by decide),
   (claim9_loader exFsLoad ["a.csv", "missing.csv"]).2⟩

/-! ## Field-conversion lemmas -/

theorem intItem_ok_of_clean (r : Record) (k : String) (hf : r.hasField k = true)
    (hc : cleanIntField r k = true) : ∃ n, r.intItem k = .ok n := by
  unfold Record.hasField at hf
  unfold cleanIntField at hc
  unfold Record.intItem
  cases hl : r.lookup k with
  | none => rw [hl] at hf; simp at hf
  | some v =>
    simp only [hl] at hc ⊢
    cases hp : pyInt v with
    | none => rw [hp] at hc; simp at hc
    | some n => simp only [hp]; exact ⟨n, rfl⟩

theorem floatItem_ok_of_clean (r : Record) (k : String) (hf : r.hasField k = true)
    (hc : cleanFloatField r k = true) : ∃ q, r.floatItem k = .ok q := by
  unfold Record.hasField at hf
  unfold cleanFloatField at hc
  unfold Record.floatItem
  cases hl : r.lookup k with
  | none => rw [hl] at hf; simp at hf
  | some v =>
    simp only [hl] at hc ⊢
    cases hp : pyFloat v with
    | none => rw [hp] at hc; simp at hc
    | some q => simp only [hp]; exact ⟨q, rfl⟩

theorem mapExcept_intItem_ok (l : List Record) (k : String)
    (h : ∀ p ∈ l, p.hasField k = true ∧ cleanIntField p k = true) :
    ∃ ns, mapExcept (fun r => r.intItem k) l = .ok ns := by
  induction l with
  | nil => exact ⟨[], rfl⟩
  | cons r rest ih =>
    obtain ⟨n, hn⟩ := intItem_ok_of_clean r k (h r (by simp)).1 (h r (by simp)).2
    obtain ⟨ns, hns⟩ := ih (fun p hp => h p (by simp [hp]))
    exact ⟨n :: ns, by unfold mapExcept; rw [hn, hns]⟩

theorem mapExcept_floatItem_ok (l : List Record) (k : String)
    (h : ∀ p ∈ l, p.hasField k = true ∧ cleanFloatField p k = true) :
    ∃ qs, mapExcept (fun r => r.floatItem k) l = .ok qs := by
  induction l with
  | nil => exact ⟨[], rfl⟩
  | cons r rest ih =>
    obtain ⟨q, hq⟩ := floatItem_ok_of_clean r k (h r (by simp)).1 (h r (by simp)).2
    obtain ⟨qs, hqs⟩ := ih (fun p hp => h p (by simp [hp]))
    exact ⟨q :: qs, by unfold mapExcept; rw [hq, hqs]⟩

theorem mapExcept_intItem_keyError (l : List Record) (k : String)
    (hclean : ∀ p ∈ l, cleanIntField p k = true)
    (hmiss : ∃ p ∈ l, p.hasField k = false) :
    mapExcept (fun r => r.intItem k) l = .error (.keyError k) := by
  induction l with
  | nil => simp at hmiss
  | cons r rest ih =>
    cases hrf : r.hasField k with
    | false =>
      have hi : r.intItem k = .error (.keyError k) := by
        unfold Record.intItem
        unfold Record.hasField at hrf
        cases hl : r.lookup k with
        | none => simp only [hl]
        | some v => rw [hl] at hrf; simp at hrf
      unfold mapExcept
      rw [hi]
    | true =>
      obtain ⟨n, hn⟩ := intItem_ok_of_clean r k hrf (hclean r (by simp))
      have hmiss2 : ∃ p ∈ rest, p.hasField k = false := by
        obtain ⟨p, hp, hpf⟩ := hmiss
        rcases List.mem_cons.mp hp with heq | hmem
        · subst heq; rw [hrf] at hpf; exact absurd hpf (by simp)
        · exact ⟨p, hmem, hpf⟩
      have hrec := ih (fun p hp => hclean p (by simp [hp])) hmiss2
      unfold mapExcept
      rw [hn, hrec]

/-! ## C5: RSS growth percentage -/

/-- C5 counterexample: the non-empty `rss_mib` sequence 0.0, 5.0 derives
no growth percentage at all: the division by the initial value raises an
uncaught ZeroDivisionError and no artifact is produced. -/
theorem claim5_counterexample :
    plot_rss_over_time exRssZeroStart = .error .zeroDivisionError := by
  rfl

/-- C5 (amended): for a non-empty RSS-churn group whose numeric fields
convert, when the first `rss_mib` value is nonzero the renderer's growth
figure is computed from the first and last values as
`(final - initial) / initial * 100`; when the first value is zero the
renderer raises an uncaught ZeroDivisionError and produces no artifact. -/
theorem claim5_rss_growth (data : List Record) (cs : List Int) (rs : List Rat)
    (sa sr : List Int)
    (hne : data ≠ [])
    (hc : mapExcept (fun r => r.intItem "cycle") data = .ok cs)
    (hr : mapExcept (fun r => r.floatItem "rss_mib") data = .ok rs)
    (ha : mapExcept (fun r => r.intItem "slabs_allocated") data = .ok sa)
    (hrc : mapExcept (fun r => r.intItem "slabs_recycled") data = .ok sr) :
    ∃ hrs : rs ≠ [],
      (rs.head hrs ≠ 0 →
        plot_rss_over_time data = .ok ⟨some ⟨cs, rs, sa, sr,
          some (rs.head hrs, rs.getLast hrs,
            ((rs.getLast hrs - rs.head hrs) / rs.head hrs) * 100)⟩, []⟩) ∧
      (rs.head hrs = 0 →
        plot_rss_over_time data = .error .zeroDivisionError) := by
  have hlen : rs.length = data.length := mapExcept_length _ _ _ hr
  have hdne : data.isEmpty = false := by simpa [List.isEmpty_iff] using hne
  have hrs : rs ≠ [] := by
    intro hnil
    rw [hnil] at hlen
    exact hne (List.length_eq_zero.mp hlen.symm)
  obtain ⟨q, qs, rfl⟩ : ∃ q qs, rs = q :: qs := by
    cases rs with
    | nil => exact absurd rfl hrs
    | cons q qs => exact ⟨q, qs, rfl⟩
  refine ⟨List.cons_ne_nil q qs, ?_, ?_⟩
  · intro hq
    rw [List.head_cons] at hq
    unfold plot_rss_over_time
    simp only [hdne, Bool.false_eq_true, if_false, hc, hr, ha, hrc]
    rw [if_neg hq]
    have hgl : (q :: qs).getLastD 0 = (q :: qs).getLast (List.cons_ne_nil q qs) := by
      rw [List.getLastD_eq_getLast?, List.getLast?_eq_getLast _ (List.cons_ne_nil q qs),
        Option.getD_some]
    simp only [hgl, List.head_cons, List.getLast_cons]
  · intro hq
    rw [List.head_cons] at hq
    unfold plot_rss_over_time
    simp only [hdne, Bool.false_eq_true, if_false, hc, hr, ha, hrc]
    rw [if_pos hq]

/-- C5 witness: the spec's sequence 100.0, 100.0, 102.4 MiB has a
nonzero initial value and yields growth 12/5 = 2.4 percent. -/
theorem claim5_witness :
    (exRssChurn ≠ []) ∧
    (∃ hrs : ([100, 100, 512 / 5] : List Rat) ≠ [],
      (([100, 100, 512 / 5] : List Rat).head hrs ≠ 0 →
        plot_rss_over_time exRssChurn = .ok ⟨some ⟨[0, 1, 2], [100, 100, 512 / 5],
          [1, 1, 1], [1, 1, 1],
          some (([100, 100, 512 / 5] : List Rat).head hrs,
            ([100, 100, 512 / 5] : List Rat).getLast hrs,
            ((([100, 100, 512 / 5] : List Rat).getLast hrs -
                ([100, 100, 512 / 5] : List Rat).head hrs) /
              ([100, 100, 512 / 5] : List Rat).head hrs) * 100)⟩, []⟩) ∧
      (([100, 100, 512 / 5] : List Rat).head hrs = 0 →
        plot_rss_over_time exRssChurn = .error .zeroDivisionError)) ∧
    plot_rss_over_time exRssChurn = .ok ⟨some ⟨[0, 1, 2], [100, 100, 512 / 5],
      [1, 1, 1], [1, 1, 1], some (100, 512 / 5, 12 / 5)⟩, []⟩ :=
  ⟨by decide,
   claim5_rss_growth exRssChurn [0, 1, 2] [100, 100, 512 / 5] [1, 1, 1] [1, 1, 1]
     (by decide) (by decide) (by rfl) (by decide) (by decide),
   by
     have h : plot_rss_over_time exRssChurn = .ok ⟨some ⟨[0, 1, 2], [100, 100, 512 / 5],
         [1, 1, 1], [1, 1, 1], some (100, 512 / 5, (512 / 5 - 100) / 100 * 100)⟩, []⟩ := by
       have h100 : ((100 : Rat) = 0) = False := by norm_num
       simp only [plot_rss_over_time, mapExcept, exRssChurn, exRssOk, Record.intItem,
         Record.floatItem, Record.lookup, pyInt, pyFloat, h100, if_false]
       rfl
     rw [h]
     norm_num⟩

/-! ## C8: zero-fill of the missing free series -/

/-- C8: with at least one `alloc` row and no `free` row, the latency
comparison renderer still emits its artifact and renders all four free
bars as zero. -/
theorem claim8_zero_fill (data : List Record) (a0 : Record) (rest : List Record) (vs : List Rat)
    (ha : data.filter (fun x => opIs x "alloc") = a0 :: rest)
    (hf : data.filter (fun x => opIs x "free") = [])
    (hv : mapExcept (fun k => a0.getFloatD k) metricNames = .ok vs) :
    plot_latency_comparison data = .ok ⟨some ⟨vs, [0, 0, 0, 0]⟩, []⟩ := by
  have hdne : data.isEmpty = false := by
    cases data with
    | nil => simp at ha
    | cons x xs => rfl
  unfold plot_latency_comparison
  simp only [hdne, Bool.false_eq_true, if_false, ha, hf, hv]

theorem claim8_witness :
    ([exLatAlloc].filter (fun x => opIs x "alloc") = [exLatAlloc]) ∧
    ([exLatAlloc].filter (fun x => opIs x "free") = []) ∧
    mapExcept (fun k => exLatAlloc.getFloatD k) metricNames = .ok [30, 50, 374, 1137] ∧
    plot_latency_comparison [exLatAlloc] =
      .ok ⟨some ⟨[30, 50, 374, 1137], [0, 0, 0, 0]⟩, []⟩ :=
  ⟨by decide, by decide, by rfl,
   claim8_zero_fill [exLatAlloc] exLatAlloc [] [30, 50, 374, 1137]
     (by decide) (by decide) (by rfl)⟩

/-! ## C10: RSS renderer requires more fields than the classifier -/

/-- C10: a Record classified into `rss_churn` by `cycle` and `rss_mib`
alone, lacking `slabs_allocated` or `slabs_recycled`, makes the RSS
renderer raise an uncaught KeyError naming one of those two fields
before any artifact is produced (provided the fields the comprehensions
read earlier convert cleanly). -/
theorem claim10_rss_missing_slab_field (data : List Record) (r : Record)
    (hmem : r ∈ data)
    (hcyc : ∀ p ∈ data, p.hasField "cycle" = true ∧ cleanIntField p "cycle" = true)
    (hrss : ∀ p ∈ data, p.hasField "rss_mib" = true ∧ cleanFloatField p "rss_mib" = true)
    (hca : ∀ p ∈ data, cleanIntField p "slabs_allocated" = true)
    (hcr : ∀ p ∈ data, cleanIntField p "slabs_recycled" = true)
    (hmiss : r.hasField "slabs_allocated" = false ∨ r.hasField "slabs_recycled" = false) :
    ∃ k, (k = "slabs_allocated" ∨ k = "slabs_recycled") ∧
      plot_rss_over_time data = .error (.keyError k) := by
  have hdne : data.isEmpty = false := by
    cases data with
    | nil => simp at hmem
    | cons a b => rfl
  obtain ⟨cs, hcs⟩ := mapExcept_intItem_ok data "cycle" hcyc
  obtain ⟨rs, hrs⟩ := mapExcept_floatItem_ok data "rss_mib" hrss
  by_cases hex : ∃ p ∈ data, p.hasField "slabs_allocated" = false
  · have h3 := mapExcept_intItem_keyError data "slabs_allocated" hca hex
    refine ⟨"slabs_allocated", Or.inl rfl, ?_⟩
    unfold plot_rss_over_time
    simp only [hdne, Bool.false_eq_true, if_false, hcs, hrs, h3]
  · have hall : ∀ p ∈ data, p.hasField "slabs_allocated" = true := by
      intro p hp
      cases hh : p.hasField "slabs_allocated" with
      | true => rfl
      | false => exact absurd ⟨p, hp, hh⟩ hex
    have hrm : r.hasField "slabs_recycled" = false := by
      rcases hmiss with h | h
      · rw [hall r hmem] at h; exact absurd h (by simp)
      · exact h
    obtain ⟨sa, hsa⟩ :=
      mapExcept_intItem_ok data "slabs_allocated" (fun p hp => ⟨hall p hp, hca p hp⟩)
    have h4 := mapExcept_intItem_keyError data "slabs_recycled" hcr ⟨r, hmem, hrm⟩
    refine ⟨"slabs_recycled", Or.inr rfl, ?_⟩
    unfold plot_rss_over_time
    simp only [hdne, Bool.false_eq_true, if_false, hcs, hrs, hsa, h4]

theorem claim10_witness :
    ∃ k, (k = "slabs_allocated" ∨ k = "slabs_recycled") ∧
      plot_rss_over_time [exRssMissing] = .error (.keyError k) :=
  claim10_rss_missing_slab_field [exRssMissing] exRssMissing (by decide) (by decide)
    (by decide) (by decide) (by decide) (by decide)

/-! ## C2: a parse failure aborts the run, not just its group -/

theorem phase_ok_mem {α : Type} (cond : Bool) (wrap : α → Artifact)
    (res : Except PyError (ROut α)) (arts : List Artifact)
    (h : phase cond wrap res = .ok arts) : ∀ a ∈ arts, ∃ x, a = wrap x := by
  unfold phase at h
  cases cond with
  | false =>
    simp only [Bool.false_eq_true, if_false, Except.ok.injEq] at h
    subst h
    intro a ha
    simp at ha
  | true =>
    simp only [if_true] at h
    cases res with
    | error e => simp at h
    | ok out =>
      have h2 : (Except.ok (match out.artifact with
          | some a => [wrap a]
          | none => []) : Except PyError (List Artifact)) = Except.ok arts := h
      cases hart : out.artifact with
      | none =>
        rw [hart] at h2
        simp only [Except.ok.injEq] at h2
        subst h2
        intro a ha
        simp at ha
      | some x =>
        rw [hart] at h2
        simp only [Except.ok.injEq] at h2
        subst h2
        intro a ha
        rw [List.mem_singleton] at ha
        exact ⟨x, ha⟩

/-- C2 counterexample: a directory whose single CSV holds a good
latency row, a fragmentation row with non-numeric `wasted`, and a good
RSS row. The run crashes at the fragmentation renderer with the
conversion error, having produced only the two latency charts; the RSS
group was non-empty and its renderer alone would have produced a chart,
but it never ran. -/
theorem claim2_counterexample :
    mainRun exFsCrash ["bench.csv"] =
      .crashed (.valueError "wasted")
        [.latencyPercentiles ⟨[30, 50, 374, 1137], [0, 0, 0, 0]⟩,
         .latencyCdf ⟨[1 / 2, 95 / 100, 99 / 100, 999 / 1000], [30, 50, 374, 1137]⟩] ∧
    ((loadAll exFsCrash ["bench.csv"]).filter isRssRec ≠ []) ∧
    (∃ out, plot_rss_over_time ((loadAll exFsCrash ["bench.csv"]).filter isRssRec) = .ok out ∧
      out.artifact.isSome = true) := by
  refine ⟨by rfl, by decide, ⟨_, by rfl, by rfl⟩⟩

/-- C2 (amended): a conversion failure on a required numeric field of a
classified Record raises an uncaught exception that aborts the whole
run at that renderer: the failing Group's chart is not produced, no
renderer scheduled after it in the fixed order runs, and only the
artifacts already produced before the failure survive. Shown here for a
failure in the fragmentation renderer: the crash keeps exactly the
latency artifacts and no fragmentation, RSS, or summary chart exists. -/
theorem claim2_crash_containment (fs : FileSystem) (files : List String) (e : PyError)
    (a1 a2 : List Artifact)
    (hfe : files.isEmpty = false)
    (hde : (loadAll fs files).isEmpty = false)
    (h1 : phase (!((loadAll fs files).filter isLatencyRec).isEmpty) Artifact.latencyPercentiles
        (plot_latency_comparison ((loadAll fs files).filter isLatencyRec)) = .ok a1)
    (h2 : phase (!((loadAll fs files).filter isLatencyRec).isEmpty) Artifact.latencyCdf
        (plot_latency_cdf ((loadAll fs files).filter isLatencyRec)) = .ok a2)
    (hfne : ((loadAll fs files).filter isFragRec).isEmpty = false)
    (herr : plot_fragmentation ((loadAll fs files).filter isFragRec) = .error e) :
    mainRun fs files = .crashed e (a1 ++ a2) ∧
    (∀ ch, Artifact.fragmentation ch ∉ a1 ++ a2) ∧
    (∀ ch, Artifact.rssOverTime ch ∉ a1 ++ a2) ∧
    (∀ ch, Artifact.summary ch ∉ a1 ++ a2) := by
  have hfrag : phase (!((loadAll fs files).filter isFragRec).isEmpty) Artifact.fragmentation
      (plot_fragmentation ((loadAll fs files).filter isFragRec)) = .error e := by
    unfold phase
    rw [hfne, herr]
    rfl
  have hmem : ∀ a ∈ a1 ++ a2,
      (∃ x, a = Artifact.latencyPercentiles x) ∨ (∃ x, a = Artifact.latencyCdf x) := by
    intro a ha
    rcases List.mem_append.mp ha with h | h
    · exact Or.inl (phase_ok_mem _ _ _ _ h1 a h)
    · exact Or.inr (phase_ok_mem _ _ _ _ h2 a h)
  refine ⟨?_, ?_, ?_, ?_⟩
  · unfold mainRun
    simp only [hfe, hde, Bool.false_eq_true, if_false, h1, h2, hfrag]
  · intro ch hch
    rcases hmem _ hch with ⟨x, hx⟩ | ⟨x, hx⟩ <;> simp at hx
  · intro ch hch
    rcases hmem _ hch with ⟨x, hx⟩ | ⟨x, hx⟩ <;> simp at hx
  · intro ch hch
    rcases hmem _ hch with ⟨x, hx⟩ | ⟨x, hx⟩ <;> simp at hx

theorem claim2_witness :
    mainRun exFsCrash ["bench.csv"] = .crashed (.valueError "wasted")
      ([.latencyPercentiles ⟨[30, 50, 374, 1137], [0, 0, 0, 0]⟩] ++
       [.latencyCdf ⟨[1 / 2, 95 / 100, 99 / 100, 999 / 1000], [30, 50, 374, 1137]⟩]) :=
  (claim2_crash_containment exFsCrash ["bench.csv"] (.valueError "wasted")
    [.latencyPercentiles ⟨[30, 50, 374, 1137], [0, 0, 0, 0]⟩]
    [.latencyCdf ⟨[1 / 2, 95 / 100, 99 / 100, 999 / 1000], [30, 50, 374, 1137]⟩]
    (by rfl) (by rfl) (by rfl) (by rfl) (by rfl) (by rfl)).1

/-! ## C7: only the first record per op value is consumed -/

theorem opIs_eq_of_lookup_eq {q r : Record} (h : q.lookup "op" = r.lookup "op")
    (s : String) : opIs q s = opIs r s := by
  unfold opIs
  rw [h]

theorem filter_op_append_single (data : List Record) (r : Record) (s : String) :
    (data ++ [r]).filter (fun x => opIs x s) =
      data.filter (fun x => opIs x s) ++ (if opIs r s then [r] else []) := by
  rw [List.filter_append]
  congr 1
  cases h : opIs r s with
  | true => simp [List.filter_cons, h]
  | false => simp [List.filter_cons, h]

theorem filter_op_ne_nil (data : List Record) (r : Record) (s : String)
    (hop : ∃ q ∈ data, q.lookup "op" = r.lookup "op") (hr : opIs r s = true) :
    data.filter (fun x => opIs x s) ≠ [] := by
  obtain ⟨q, hq, hqe⟩ := hop
  have hqs : opIs q s = true := by rw [opIs_eq_of_lookup_eq hqe]; exact hr
  intro hnil
  have hmem : q ∈ data.filter (fun x => opIs x s) := List.mem_filter.mpr ⟨hq, hqs⟩
  rw [hnil] at hmem
  simp at hmem

/-- The extended filter is the original filter when the appended record
cannot be first: either nothing is appended, or the original filter is
already non-empty so the head is unchanged. -/
theorem filter_op_same_shape (data : List Record) (r : Record) (s : String)
    (hop : ∃ q ∈ data, q.lookup "op" = r.lookup "op") :
    ((data ++ [r]).filter (fun x => opIs x s) = [] ∧ data.filter (fun x => opIs x s) = []) ∨
    (∃ a0 trest rest, (data ++ [r]).filter (fun x => opIs x s) = a0 :: trest ∧
      data.filter (fun x => opIs x s) = a0 :: rest) := by
  rw [filter_op_append_single]
  cases hA : data.filter (fun x => opIs x s) with
  | nil =>
    have hrs : opIs r s = false := by
      cases hh : opIs r s with
      | false => rfl
      | true => exact absurd hA (filter_op_ne_nil data r s hop hh)
    simp [hrs]
  | cons a0 rest =>
    cases hh : opIs r s with
    | true => exact Or.inr ⟨a0, rest ++ [r], rest, by simp, rfl⟩
    | false => exact Or.inr ⟨a0, rest, rest, by simp, rfl⟩

/-- C7: appending a Record whose `op` value already occurs in the group
changes none of the three op-keyed renderers: they consume only the
first record per `op` value. -/
theorem claim7_first_record_per_op (data : List Record) (r : Record) (fd : List Record)
    (hop : ∃ q ∈ data, q.lookup "op" = r.lookup "op") :
    plot_latency_comparison (data ++ [r]) = plot_latency_comparison data ∧
    plot_latency_cdf (data ++ [r]) = plot_latency_cdf data ∧
    plot_summary_card (data ++ [r]) fd = plot_summary_card data fd := by
  obtain ⟨q, hq, hqe⟩ := hop
  have hdne : data.isEmpty = false := by
    cases data with
    | nil => simp at hq
    | cons x xs => rfl
  have hdne2 : (data ++ [r]).isEmpty = false := by
    cases data with
    | nil => simp at hq
    | cons x xs => rfl
  refine ⟨?_, ?_, ?_⟩
  · unfold plot_latency_comparison
    simp only [hdne, hdne2, Bool.false_eq_true, if_false]
    rcases filter_op_same_shape data r "alloc" ⟨q, hq, hqe⟩ with ⟨hx, hy⟩ | ⟨a0, t1, t2, hx, hy⟩
    · rw [hx, hy]
    · rw [hx, hy]
      rcases filter_op_same_shape data r "free" ⟨q, hq, hqe⟩ with ⟨fx, fy⟩ | ⟨f0, u1, u2, fx, fy⟩
      · rw [fx, fy]
      · rw [fx, fy]
  · unfold plot_latency_cdf
    rcases filter_op_same_shape data r "alloc" ⟨q, hq, hqe⟩ with ⟨hx, hy⟩ | ⟨a0, t1, t2, hx, hy⟩
    · rw [hx, hy]
    · rw [hx, hy]
  · unfold plot_summary_card
    have hfind : (data ++ [r]).find? (fun x => opIs x "alloc") =
        data.find? (fun x => opIs x "alloc") := by
      rw [List.find?_append]
      cases hfd : data.find? (fun x => opIs x "alloc") with
      | some a => rfl
      | none =>
        have hra : opIs r "alloc" = false := by
          cases hh : opIs r "alloc" with
          | false => rfl
          | true =>
            have hqs : opIs q "alloc" = true := by
              rw [opIs_eq_of_lookup_eq hqe]; exact hh
            have := (List.find?_isSome (p := fun x => opIs x "alloc")).mpr ⟨q, hq, hqs⟩
            rw [hfd] at this
            simp at this
        simp [List.find?, hra]
    rw [hfind]

theorem claim7_witness :
    (∃ q ∈ [exLatAlloc], q.lookup "op" = exLatAllocLater.lookup "op") ∧
    (plot_latency_comparison ([exLatAlloc] ++ [exLatAllocLater]) =
        plot_latency_comparison [exLatAlloc] ∧
      plot_latency_cdf ([exLatAlloc] ++ [exLatAllocLater]) = plot_latency_cdf [exLatAlloc] ∧
      plot_summary_card ([exLatAlloc] ++ [exLatAllocLater]) [] =
        plot_summary_card [exLatAlloc] []) :=
  ⟨⟨exLatAlloc, by decide⟩,
   claim7_first_record_per_op [exLatAlloc] exLatAllocLater [] ⟨exLatAlloc, by decide⟩⟩

/-! ## C6: per-size-class aggregation lemmas -/

theorem entryOf_nil (d : Int) : entryOf [] d = emptyEntry := rfl

theorem entryOf_cons (k : Int) (e : SCEntry) (rest : SCMap) (d : Int) :
    entryOf ((k, e) :: rest) d = if k = d then e else entryOf rest d := by
  unfold entryOf
  by_cases h : k = d
  · subst h
    simp [List.find?_cons]
  · simp [List.find?_cons, h]

theorem hasKey_cons (k : Int) (e : SCEntry) (rest : SCMap) (d : Int) :
    hasKey ((k, e) :: rest) d = if k = d then true else hasKey rest d := by
  unfold hasKey
  by_cases h : k = d
  · subst h
    simp [List.find?_cons]
  · simp [List.find?_cons, h]

theorem hasKey_iff_mem (m : SCMap) (d : Int) : hasKey m d = true ↔ d ∈ keysOf m := by
  unfold hasKey keysOf
  rw [List.find?_isSome]
  constructor
  · rintro ⟨p, hp, hpd⟩
    exact List.mem_map.mpr ⟨p, hp, by simpa using hpd⟩
  · intro hm
    obtain ⟨p, hp, hpd⟩ := List.mem_map.mp hm
    exact ⟨p, hp, by simp [hpd]⟩

theorem entryOf_of_not_hasKey (m : SCMap) (d : Int) (h : hasKey m d = false) :
    entryOf m d = emptyEntry := by
  unfold hasKey at h
  unfold entryOf
  cases hf : m.find? (fun p => p.1 == d) with
  | none => rfl
  | some p => rw [hf] at h; simp at h

theorem keysOf_updateEntry (m : SCMap) (c : Int) (f : SCEntry → SCEntry) :
    keysOf (updateEntry m c f) = keysOf m := by
  induction m with
  | nil => rfl
  | cons he rest ih =>
    obtain ⟨k, e⟩ := he
    unfold updateEntry
    by_cases h : k = c
    · simp [h, keysOf]
    · rw [if_neg h]
      show (k, e).1 :: keysOf (updateEntry rest c f) = (k, e).1 :: keysOf rest
      rw [ih]

theorem entryOf_updateEntry (m : SCMap) (c : Int) (f : SCEntry → SCEntry) (d : Int) :
    entryOf (updateEntry m c f) d =
      if d = c then (if hasKey m d then f (entryOf m d) else entryOf m d)
      else entryOf m d := by
  induction m with
  | nil =>
    show entryOf [] d = _
    rw [entryOf_nil]
    have : hasKey ([] : SCMap) d = false := rfl
    rw [this]
    split <;> rfl
  | cons he rest ih =>
    obtain ⟨k, e⟩ := he
    unfold updateEntry
    by_cases hkc : k = c
    · rw [if_pos hkc]
      subst hkc
      rw [entryOf_cons, entryOf_cons, hasKey_cons]
      by_cases hdk : k = d
      · subst hdk
        simp
      · simp [hdk, Ne.symm hdk]
    · rw [if_neg hkc]
      rw [entryOf_cons, entryOf_cons, hasKey_cons, ih]
      by_cases hdk : k = d
      · subst hdk
        simp [hkc]
      · simp [hdk]

theorem entryOf_append_single (m : SCMap) (k0 : Int) (e0 : SCEntry) (d : Int) :
    entryOf (m ++ [(k0, e0)]) d =
      if hasKey m d then entryOf m d else (if k0 = d then e0 else emptyEntry) := by
  unfold entryOf hasKey
  rw [List.find?_append]
  cases hf : m.find? (fun p => p.1 == d) with
  | some p => simp
  | none =>
    simp only [Option.isSome_none, Bool.false_eq_true, if_false, Option.none_or]
    by_cases h : k0 = d
    · subst h
      simp [List.find?_cons]
    · simp [List.find?_cons, h]

theorem entryOf_mapInsert (m : SCMap) (w : FragRow) (d : Int) :
    entryOf (mapInsert m w) d =
      if w.sc = d then (entryOf m d).push w.requested w.wasted w.eff
      else entryOf m d := by
  unfold mapInsert
  by_cases hk : hasKey m w.sc
  · rw [if_pos hk, entryOf_updateEntry]
    by_cases hd : d = w.sc
    · subst hd
      simp [hk]
    · simp [hd, Ne.symm hd]
  · rw [if_neg hk, entryOf_append_single]
    by_cases hd : w.sc = d
    · subst hd
      have hkd : hasKey m w.sc = false := by simpa using hk
      rw [hkd, entryOf_of_not_hasKey m w.sc hkd]
      simp [SCEntry.push, emptyEntry]
    · by_cases hkd : hasKey m d
      · simp [hkd, hd]
      · have hkdf : hasKey m d = false := by simpa using hkd
        rw [hkdf, entryOf_of_not_hasKey m d hkdf]
        simp [hd]

theorem keysOf_mapInsert (m : SCMap) (w : FragRow) :
    keysOf (mapInsert m w) =
      if hasKey m w.sc then keysOf m else keysOf m ++ [w.sc] := by
  unfold mapInsert
  by_cases hk : hasKey m w.sc
  · simp [hk, keysOf_updateEntry]
  · simp [hk, keysOf]

theorem mem_keys_mapInsert (m : SCMap) (w : FragRow) (d : Int) :
    d ∈ keysOf (mapInsert m w) ↔ d ∈ keysOf m ∨ w.sc = d := by
  rw [keysOf_mapInsert]
  by_cases hk : hasKey m w.sc
  · simp only [hk, if_true]
    constructor
    · exact Or.inl
    · rintro (h | h)
      · exact h
      · subst h
        exact (hasKey_iff_mem m w.sc).mp hk
  · have hkf : hasKey m w.sc = false := by simpa using hk
    simp [hkf, eq_comm]

theorem nodup_keys_mapInsert (m : SCMap) (w : FragRow) (h : (keysOf m).Nodup) :
    (keysOf (mapInsert m w)).Nodup := by
  rw [keysOf_mapInsert]
  by_cases hk : hasKey m w.sc
  · simpa [hk] using h
  · have hkf : hasKey m w.sc = false := by simpa using hk
    have hnm : w.sc ∉ keysOf m := fun hc => by
      rw [(hasKey_iff_mem m w.sc).mpr hc] at hkf
      exact absurd hkf (by simp)
    simp [hkf, List.nodup_append, h, hnm]

theorem entryOf_foldRows (rows : List FragRow) : ∀ (m : SCMap) (d : Int),
    entryOf (foldRows m rows) d = ⟨
      (entryOf m d).requested ++ (rows.filter (fun w => w.sc == d)).map FragRow.requested,
      (entryOf m d).wasted ++ (rows.filter (fun w => w.sc == d)).map FragRow.wasted,
      (entryOf m d).efficiency ++ (rows.filter (fun w => w.sc == d)).map FragRow.eff⟩ := by
  induction rows with
  | nil =>
    intro m d
    simp [foldRows]
  | cons w ws ih =>
    intro m d
    unfold foldRows
    rw [ih, entryOf_mapInsert]
    by_cases h : w.sc = d
    · rw [if_pos h]
      unfold SCEntry.push
      simp [List.filter_cons, h]
    · rw [if_neg h]
      simp [List.filter_cons, h]

theorem mem_keys_foldRows (rows : List FragRow) : ∀ (m : SCMap) (d : Int),
    d ∈ keysOf (foldRows m rows) ↔ d ∈ keysOf m ∨ ∃ w ∈ rows, w.sc = d := by
  induction rows with
  | nil =>
    intro m d
    simp [foldRows]
  | cons w ws ih =>
    intro m d
    unfold foldRows
    rw [ih, mem_keys_mapInsert]
    constructor
    · rintro ((h | h) | ⟨x, hx, hxd⟩)
      · exact Or.inl h
      · exact Or.inr ⟨w, by simp, h⟩
      · exact Or.inr ⟨x, by simp [hx], hxd⟩
    · rintro (h | ⟨x, hx, hxd⟩)
      · exact Or.inl (Or.inl h)
      · rcases List.mem_cons.mp hx with heq | hmem
        · subst heq
          exact Or.inl (Or.inr hxd)
        · exact Or.inr ⟨x, hmem, hxd⟩

theorem nodup_keys_foldRows (rows : List FragRow) : ∀ (m : SCMap),
    (keysOf m).Nodup → (keysOf (foldRows m rows)).Nodup := by
  induction rows with
  | nil =>
    intro m h
    exact h
  | cons w ws ih =>
    intro m h
    exact ih (mapInsert m w) (nodup_keys_mapInsert m w h)

theorem buildSizeClasses_eq (data : List Record) : ∀ (opts : List (Option FragRow)) (m : SCMap),
    mapExcept parseFragRow data = .ok opts →
    buildSizeClasses m data = .ok (foldRows m opts.reduceOption) := by
  induction data with
  | nil =>
    intro opts m h
    unfold mapExcept at h
    cases h
    rfl
  | cons r rest ih =>
    intro opts m h
    unfold mapExcept at h
    cases hr : parseFragRow r with
    | error e => rw [hr] at h; exact absurd h (by simp)
    | ok o =>
      rw [hr] at h
      cases hrest : mapExcept parseFragRow rest with
      | error e => rw [hrest] at h; exact absurd h (by simp)
      | ok os =>
        rw [hrest] at h
        have h2 : (Except.ok (o :: os) : Except PyError (List (Option FragRow))) = .ok opts := h
        cases h2
        unfold buildSizeClasses fragStepMap
        rw [hr]
        cases o with
        | none =>
          rw [List.reduceOption_cons_of_none]
          exact ih os m hrest
        | some w =>
          rw [List.reduceOption_cons_of_some]
          exact ih os (mapInsert m w) hrest

/-- C6: for a fragmentation group whose rows convert cleanly, the chart
lists the distinct size classes sorted ascending, and for each class the
mean `wasted` and mean `efficiency_pct` over ALL of that class's rows
(duplicates accumulate into the same aggregate). -/
theorem claim6_frag_aggregation (data : List Record) (opts : List (Option FragRow))
    (hne : data ≠ [])
    (hp : mapExcept parseFragRow data = .ok opts) :
    ∃ chart, plot_fragmentation data = .ok ⟨some chart, []⟩ ∧
      chart.classes.Sorted (· ≤ ·) ∧
      chart.classes.Nodup ∧
      (∀ c : Int, c ∈ chart.classes ↔ ∃ w ∈ opts.reduceOption, w.sc = c) ∧
      chart.avgWaste = chart.classes.map
        (fun c => intMean ((opts.reduceOption.filter (fun w => w.sc == c)).map FragRow.wasted)) ∧
      chart.avgEfficiency = chart.classes.map
        (fun c => ratMean ((opts.reduceOption.filter (fun w => w.sc == c)).map FragRow.eff)) := by
  have hdne : data.isEmpty = false := by simpa [List.isEmpty_iff] using hne
  have hbuild := buildSizeClasses_eq data opts [] hp
  refine ⟨⟨List.insertionSort (fun a b => a ≤ b) (keysOf (foldRows [] opts.reduceOption)),
    (List.insertionSort (fun a b => a ≤ b) (keysOf (foldRows [] opts.reduceOption))).map
      (fun c => intMean (entryOf (foldRows [] opts.reduceOption) c).wasted),
    (List.insertionSort (fun a b => a ≤ b) (keysOf (foldRows [] opts.reduceOption))).map
      (fun c => ratMean (entryOf (foldRows [] opts.reduceOption) c).efficiency)⟩,
    ?_, ?_, ?_, ?_, ?_, ?_⟩
  · unfold plot_fragmentation
    simp only [hdne, Bool.false_eq_true, if_false, hbuild]
  · exact List.sorted_insertionSort _ _
  · exact ((List.perm_insertionSort _ _).nodup_iff).mpr
      (nodup_keys_foldRows opts.reduceOption [] (by simp [keysOf]))
  · intro c
    rw [List.mem_insertionSort, mem_keys_foldRows]
    simp [keysOf]
  · apply List.map_congr_left
    intro c _
    rw [entryOf_foldRows]
    rfl
  · apply List.map_congr_left
    intro c _
    rw [entryOf_foldRows]
    rfl

/-- C6 witness: the spec's two rows for size class 64 yield exactly one
class, mean wasted 15 and mean efficiency 85. -/
theorem claim6_witness :
    ([exFrag64a, exFrag64b] ≠ ([] : List Record)) ∧
    mapExcept parseFragRow [exFrag64a, exFrag64b] =
      .ok [some ⟨64, 64, 10, 90⟩, some ⟨64, 64, 20, 80⟩] ∧
    (∃ chart, plot_fragmentation [exFrag64a, exFrag64b] = .ok ⟨some chart, []⟩ ∧
      chart.classes.Sorted (· ≤ ·) ∧
      chart.classes.Nodup ∧
      (∀ c : Int, c ∈ chart.classes ↔
        ∃ w ∈ ([some ⟨64, 64, 10, 90⟩, some ⟨64, 64, 20, 80⟩] :
          List (Option FragRow)).reduceOption, w.sc = c) ∧
      chart.avgWaste = chart.classes.map
        (fun c => intMean ((([some ⟨64, 64, 10, 90⟩, some ⟨64, 64, 20, 80⟩] :
          List (Option FragRow)).reduceOption.filter
            (fun w => w.sc == c)).map FragRow.wasted)) ∧
      chart.avgEfficiency = chart.classes.map
        (fun c => ratMean ((([some ⟨64, 64, 10, 90⟩, some ⟨64, 64, 20, 80⟩] :
          List (Option FragRow)).reduceOption.filter
            (fun w => w.sc == c)).map FragRow.eff))) ∧
    plot_fragmentation [exFrag64a, exFrag64b] = .ok ⟨some ⟨[64], [15], [85]⟩, []⟩ :=
  ⟨by decide, by rfl,
   claim6_frag_aggregation [exFrag64a, exFrag64b]
     [some ⟨64, 64, 10, 90⟩, some ⟨64, 64, 20, 80⟩] (by decide) (by rfl),
   by
     have h : plot_fragmentation [exFrag64a, exFrag64b] =
         .ok ⟨some ⟨[64], [intMean [10, 20]], [ratMean [90, 80]]⟩, []⟩ := by rfl
     rw [h]
     norm_num [intMean, ratMean]⟩
